import Mathlib

/-!
Verification of the Blip integration core (message deduplication guard,
command-protocol-backed history store, predicate/dispatch pipeline and
message conversion), shallowly embedded from the Python sources
`langchain_community/utilities/blip.py`,
`langchain_community/chat_message_histories/blip.py` and
`langchain_community/adapters/blip.py`.
-/

namespace BlipVerify

/-! ## A small model of the Python values handled by `convert_message_from_blip`

The adapter inspects `message.content`, which at runtime is either a string
or a JSON-like dict / list.  `PyVal` models exactly those shapes.  Python
equality between values of different shapes (a string versus a dict) is
`False`; `pyEq` reproduces that. -/

inductive PyVal where
  | str : String → PyVal
  | dict : List (String × PyVal) → PyVal
  | list : List PyVal → PyVal
deriving Repr

mutual

/-- Python `==` on the modelled values. -/
def pyEq : PyVal → PyVal → Bool
  | .str a, .str b => a == b
  | .dict a, .dict b => pyEqPairs a b
  | .list a, .list b => pyEqList a b
  | _, _ => false

def pyEqList : List PyVal → List PyVal → Bool
  | [], [] => true
  | a :: as2, b :: bs2 => pyEq a b && pyEqList as2 bs2
  | _, _ => false

def pyEqPairs : List (String × PyVal) → List (String × PyVal) → Bool
  | [], [] => true
  | (ka, va) :: as2, (kb, vb) :: bs2 => ka == kb && pyEq va vb && pyEqPairs as2 bs2
  | _, _ => false

end

/-- Python `needle in container` for the container shapes the adapter can
reach: membership by `==` for a list, key membership for a dict. -/
def pyIn (needle : PyVal) (container : PyVal) : Bool :=
  match container with
  | .list xs => xs.any (fun x => pyEq x needle)
  | .dict kvs => kvs.any (fun kv => pyEq (.str kv.1) needle)
  | .str _ => false

/-- Lookup of `d[k]` for a dict, as an `Option` (Python raises `KeyError`
when absent; the caller maps `none` to that error). -/
def dictGet (kvs : List (String × PyVal)) (k : String) : Option PyVal :=
  match kvs with
  | [] => none
  | (k2, v) :: rest => if k2 == k then some v else dictGet rest k

/-- Python `list.append` on a modelled list value. -/
def pyAppend (v : PyVal) (item : PyVal) : PyVal :=
  match v with
  | .list xs => .list (xs ++ [item])
  | other => other

/-- `str.startswith(pre)` on the modelled strings. -/
def strStartsWith (s pre : String) : Bool :=
  pre.data.isPrefixOf s.data

mutual

/-- A simple rendering of a value, standing in for Python `str(content)`
in the non-image dict branch of the adapter. -/
def pyStr : PyVal → String
  | .str s => s
  | .dict kvs => "\x7b" ++ pyStrPairs kvs ++ "\x7d"
  | .list xs => "[" ++ pyStrList xs ++ "]"

def pyStrList : List PyVal → String
  | [] => ""
  | [x] => pyStr x
  | x :: rest => pyStr x ++ ", " ++ pyStrList rest

def pyStrPairs : List (String × PyVal) → String
  | [] => ""
  | [(k, v)] => k ++ ": " ++ pyStr v
  | (k, v) :: rest => k ++ ": " ++ pyStr v ++ ", " ++ pyStrPairs rest

end

/-! ## Adapter: `convert_message_from_blip` (adapters/blip.py, lines 10-29) -/

/-- The errors a Python-level slip in the adapter could raise. -/
inductive PyErr where
  | keyError : String → PyErr
  | typeError : PyErr
  | attributeError : PyErr
deriving DecidableEq, Repr

/-- The result of the adapter: a `HumanMessage` carrying the converted
content. -/
structure HumanMessage where
  content : PyVal
deriving Repr

/-- Subscripting `v[k]` with a string key, as Python does it: dict lookup
(raising `KeyError` when absent), `TypeError` on a list or string. -/
def pySubscript (v : PyVal) (k : String) : Except PyErr PyVal :=
  match v with
  | .dict kvs =>
    match dictGet kvs k with
    | some x => .ok x
    | none => .error (.keyError k)
  | _ => .error .typeError

/-- Shallow embedding of `convert_message_from_blip` (adapters/blip.py).
The source rebinds `content` to the new single-item list before testing
membership of the keys `'text'` and `'title'`, so those tests run against
the list of dicts, exactly as embedded here. -/
def convert_message_from_blip (content : PyVal) : Except PyErr HumanMessage :=
  match content with
  | .dict kvs =>
    match pySubscript (.dict kvs) "type" with
    | .error e => .error e
    | .ok ty =>
      match ty with
      | .str tys =>
        if strStartsWith tys "image/" then
          (match pySubscript (.dict kvs) "uri" with
          | .error e => .error e
          | .ok uri =>
            let content1 : PyVal :=
              .list [.dict [("type", .str "image_url"), ("image_url", .dict [("url", uri)])]]
            match (if pyIn (.str "text") content1 then
                (match pySubscript content1 "text" with
                | .error e => .error e
                | .ok t => .ok (pyAppend content1 (.dict [("type", .str "text"), ("text", t)])))
              else .ok content1 : Except PyErr PyVal) with
            | .error e => .error e
            | .ok content2 =>
              match (if pyIn (.str "title") content2 then
                  (match pySubscript content2 "title" with
                  | .error e => .error e
                  | .ok t => .ok (pyAppend content2 (.dict [("type", .str "text"), ("text", t)])))
                else .ok content2 : Except PyErr PyVal) with
              | .error e => .error e
              | .ok content3 => .ok ⟨content3⟩)
        else
          .ok ⟨.str (pyStr (.dict kvs))⟩
      | _ => .error .attributeError
  | other => .ok ⟨other⟩

/-! ## Inbound messages and the dedup guard (utilities/blip.py) -/

/-- An inbound lime message, with the fields the core reads. -/
structure BlipMessage where
  id : String
  from_n : String
  type_n : String
  content : PyVal

/-- The message status across the distributed system
(utilities/blip.py, lines 75-83). -/
inductive BlipMessageStatus where
  | PENDING
  | CONSUMED
deriving DecidableEq, Repr

/-- State of `MemoryBlipDistributedMessageManager`: the shared list of
collected message ids and the configured `max_size`
(utilities/blip.py, lines 104-119). -/
structure MemoryBlipDistributedMessageManager where
  collected_messages : List String
  max_size : Int
deriving DecidableEq, Repr

/-- The state produced by `__init__(max_size)`: an empty collected list. -/
def freshManager (max_size : Int) : MemoryBlipDistributedMessageManager :=
  ⟨[], max_size⟩

/-- Shallow embedding of `MemoryBlipDistributedMessageManager.__init__`
(utilities/blip.py, lines 109-119).  The constructor performs no
validation and cannot fail, so it always returns `.ok`. -/
def initManager (max_size : Int) : Except String MemoryBlipDistributedMessageManager :=
  .ok (freshManager max_size)

/-- Shallow embedding of `store_message_id` (utilities/blip.py, lines
121-130): append the id, then, when the length has reached `max_size`,
`remove` the first occurrence of `collected_messages[-1]` (the element
just appended). -/
def store_message_id (s : MemoryBlipDistributedMessageManager) (message_id : String) :
    MemoryBlipDistributedMessageManager :=
  let c := s.collected_messages ++ [message_id]
  if (c.length : Int) ≥ s.max_size then
    { s with collected_messages := c.erase (c.getLastD "") }
  else
    { s with collected_messages := c }

/-- Shallow embedding of `fetch_message_status` (utilities/blip.py, lines
132-146): under the lock, a never-seen id is stored and reported PENDING,
a seen id is reported CONSUMED.  The updated manager state is returned
alongside the status. -/
def fetch_message_status (s : MemoryBlipDistributedMessageManager) (message : BlipMessage) :
    BlipMessageStatus × MemoryBlipDistributedMessageManager :=
  if message.id ∈ s.collected_messages then
    (.CONSUMED, s)
  else
    (.PENDING, store_message_id s message.id)

/-- Run a sequence of `fetch_message_status` calls, threading the manager
state. -/
def runFetches (s : MemoryBlipDistributedMessageManager) (msgs : List BlipMessage) :
    MemoryBlipDistributedMessageManager :=
  msgs.foldl (fun st m => (fetch_message_status st m).2) s

/-! ## Dispatcher: predicate and handler (utilities/blip.py, lines 234-304) -/

/-- The chatstate MIME tag filtered by the predicate. -/
def chatstateTag : String := "application/vnd.lime.chatstate+json"

/-- Shallow embedding of `message_predicate` (utilities/blip.py, lines
285-302).  The wrapper's optional `distributed_message_manager` and the
optional custom `message_filter` are passed explicitly; the possibly
updated manager state is returned alongside the boolean, since
`fetch_message_status` records the id as a side effect. -/
def message_predicate (dmm : Option MemoryBlipDistributedMessageManager)
    (message_filter : Option (BlipMessage → Bool)) (message : BlipMessage) :
    Bool × Option MemoryBlipDistributedMessageManager :=
  if message.type_n = chatstateTag then
    (false, dmm)
  else
    match dmm with
    | some g =>
      let r := fetch_message_status g message
      (r.1 = BlipMessageStatus.PENDING, some r.2)
    | none =>
      match message_filter with
      | some f => (f message, none)
      | none => (true, none)

/-- A lime identity, as produced by `Identity.parse_str` on the sender
field: the part before the `@` and, when present, the domain after it. -/
structure Identity where
  name : String
  domain : Option String
deriving DecidableEq, Repr

/-- Model of lime's `Identity.parse_str`: split on `@`, the first part is
the name, the second (when present) the domain. -/
def parseIdentity (s : String) : Identity :=
  let parts := s.splitOn "@"
  ⟨parts.headD "", parts[1]?⟩

/-- The result of invoking the application-logic runnable on a converted
message: either an `AIMessage` (content plus tool calls) or any other
value. -/
inductive AppResponse where
  | AIMessage : String → List String → AppResponse
  | other : AppResponse

/-- An outbound message the handler may send; `to_n` is the `to` field of
the lime message (`to` is reserved in Lean). -/
structure OutMessage where
  type_n : String
  content : String
  to_n : Identity
deriving DecidableEq, Repr

/-- Shallow embedding of the handler `process_message` (utilities/blip.py,
lines 245-271): derive the caller identity from `from_n`, convert the
inbound message, invoke the runnable, and send a single `text/plain`
reply to the sender exactly when the result is an `AIMessage` with truthy
content and no tool calls.  The returned list collects the messages sent
through `client.send_message`. -/
def process_message (runnable : HumanMessage → Identity → AppResponse)
    (message : BlipMessage) : Except PyErr (List OutMessage) :=
  let user_id := parseIdentity message.from_n
  match convert_message_from_blip message.content with
  | .error e => .error e
  | .ok converted =>
    match runnable converted user_id with
    | .AIMessage c tool_calls =>
      if c ≠ "" ∧ tool_calls = [] then
        .ok [⟨"text/plain", c, user_id⟩]
      else
        .ok []
    | .other => .ok []

/-! ## Conversation turns and their payload encoding

`aadd_message` stores the history as `json.dumps([m.dict() for m in
history])` and `aget_messages` recovers it with
`convert_to_messages(json.loads(...))`.  The JSON codec is external
library code; it is modelled here by an executable, injective
serialization of turn lists into strings together with its decoder, for
which the round trip is proved below. -/

/-- One conversation turn: the message type (role) and its content,
the fields `convert_to_messages` needs from each serialized dict. -/
structure Turn where
  type_n : String
  content : String
deriving DecidableEq, Repr

/-- Encode one string as characters, escaping the terminator and the
escape character, and closing with the terminator `;`. -/
def encStr : List Char → List Char
  | [] => [';']
  | c :: rest => if c = ';' ∨ c = '\\' then '\\' :: c :: encStr rest else c :: encStr rest

/-- Decode one string encoded by `encStr`, returning it together with the
unconsumed remainder. -/
def decStr : List Char → Option (List Char × List Char)
  | [] => none
  | c :: rest =>
    if c = ';' then some ([], rest)
    else if c = '\\' then
      match rest with
      | [] => none
      | d :: rest2 => (decStr rest2).map (fun p => (d :: p.1, p.2))
    else (decStr rest).map (fun p => (c :: p.1, p.2))

/-- Encode one turn: its type followed by its content. -/
def encTurn (t : Turn) : List Char :=
  encStr t.type_n.data ++ encStr t.content.data

/-- Encode a list of turns: `1` prefixes each element, `0` ends the list. -/
def encTurns : List Turn → List Char
  | [] => ['0']
  | t :: ts => '1' :: (encTurn t ++ encTurns ts)

/-- Fueled decoder for a list of turns encoded by `encTurns`. -/
def decTurnsF : Nat → List Char → Option (List Turn × List Char)
  | _, [] => none
  | 0, _ :: _ => none
  | fuel + 1, c :: rest =>
    if c = '0' then some ([], rest)
    else if c = '1' then
      match decStr rest with
      | none => none
      | some (ty, r1) =>
        match decStr r1 with
        | none => none
        | some (ct, r2) =>
          match decTurnsF fuel r2 with
          | none => none
          | some (ts, r3) => some (⟨⟨ty⟩, ⟨ct⟩⟩ :: ts, r3)
    else none

/-- Model of the payload serialization performed on write
(`json.dumps([m.dict() for m in history])`). -/
def encodeTurns (ts : List Turn) : String := ⟨encTurns ts⟩

/-- Model of the payload deserialization performed on read
(`convert_to_messages(json.loads(resource))`); `none` stands for the
decoding error the library would raise on a malformed payload. -/
def decodeTurns (s : String) : Option (List Turn) :=
  match decTurnsF (s.data.length + 1) s.data with
  | some (ts, []) => some ts
  | _ => none

/-! ## The command protocol and the history store
(chat_message_histories/blip.py) -/

/-- The status of a command response. -/
inductive CommandStatus where
  | SUCCESS
  | FAILURE
deriving DecidableEq, Repr

/-- The failure reason attached to a FAILURE response (the source reads
`response.reason["code"]`). -/
structure Reason where
  code : Nat
deriving DecidableEq, Repr

/-- The lime reason code `COMMAND_RESOURCE_NOT_FOUND`. -/
def COMMAND_RESOURCE_NOT_FOUND : Nat := 67

/-- A resolved command response: status, optional reason, optional
resource body. -/
structure Response where
  status : CommandStatus
  reason : Option Reason
  resource : Option String
deriving DecidableEq, Repr

/-- The errors the history-store operations can raise.  The two
`failed...` constructors carry the variable name and the session id that
the raised message interpolates; `typeError` models subscripting a `None`
reason; `decodeError` models a JSON decoding failure on the resource. -/
inductive BlipErr where
  | failedRequesting : String → String → BlipErr
  | failedUpdating : String → String → BlipErr
  | typeError : BlipErr
  | decodeError : BlipErr
deriving DecidableEq, Repr

/-- Is the error a store-level failure, i.e. one of the two explicitly
raised exceptions whose message names the variable and the session? -/
def isStoreFailure : Except BlipErr α → Bool
  | .error (.failedRequesting _ _) => true
  | .error (.failedUpdating _ _) => true
  | _ => false

/-- Shallow embedding of `aget_messages` (chat_message_histories/blip.py,
lines 62-89), parametric in the response the awaited GET command
resolved to.  A FAILURE response has `reason["code"]` subscripted first:
with no reason present that is a `TypeError`; with the NOT_FOUND code the
result is the empty history; any other FAILURE raises the store-level
error naming the variable and session.  On SUCCESS the resource body is
decoded. -/
def aget_messages (session_id variable_name : String) (response : Response) :
    Except BlipErr (List Turn) :=
  match response.status with
  | .FAILURE =>
    match response.reason with
    | none => .error .typeError
    | some r =>
      if r.code = COMMAND_RESOURCE_NOT_FOUND then .ok []
      else .error (.failedRequesting variable_name session_id)
  | .SUCCESS =>
    match response.resource with
    | none => .error .decodeError
    | some s =>
      match decodeTurns s with
      | none => .error .decodeError
      | some ts => .ok ts

/-- Shallow embedding of `set_context_async` (chat_message_histories/
blip.py, lines 111-135), parametric in the response the awaited SET
command resolved to: any FAILURE raises the store-level error naming the
variable and session.  The written `value` does not influence the
outcome. -/
def set_context_async (session_id variable_name : String) (value : String)
    (response : Response) : Except BlipErr Unit :=
  match response.status with
  | .FAILURE => .error (.failedUpdating variable_name session_id)
  | .SUCCESS => .ok ()

/-- Shallow embedding of `aadd_message` (chat_message_histories/blip.py,
lines 100-109), parametric in the two responses (GET then SET): read the
current history, append the turn in memory, write back the full encoded
sequence.  Returns the written payload. -/
def aadd_message (session_id variable_name : String) (getResponse setResponse : Response)
    (message : Turn) : Except BlipErr String :=
  match aget_messages session_id variable_name getResponse with
  | .error e => .error e
  | .ok history =>
    let value := encodeTurns (history ++ [message])
    match set_context_async session_id variable_name value setResponse with
    | .error e => .error e
    | .ok _ => .ok value

/-- Shallow embedding of `aclear` (chat_message_histories/blip.py, lines
143-147): write back the encoding of the empty sequence. -/
def aclear (session_id variable_name : String) (setResponse : Response) :
    Except BlipErr Unit :=
  set_context_async session_id variable_name (encodeTurns []) setResponse

/-! ## A faithful remote store for the single-writer round trip

The remote context variable for the fixed `(session, variable)` key is an
`Option String`: `none` when never written, `some v` after the last write
of `v`.  A faithful store answers a GET with NOT_FOUND or the stored
value, and acknowledges every SET. -/

/-- The response a faithful store gives to the GET command. -/
def storeGetResponse (st : Option String) : Response :=
  match st with
  | none => ⟨.FAILURE, some ⟨COMMAND_RESOURCE_NOT_FOUND⟩, none⟩
  | some v => ⟨.SUCCESS, none, some v⟩

/-- The response a faithful store gives to the SET command. -/
def storeSetResponse : Response := ⟨.SUCCESS, none, none⟩

/-- `aget_messages` run against the faithful store. -/
def agetFromStore (session_id variable_name : String) (st : Option String) :
    Except BlipErr (List Turn) :=
  aget_messages session_id variable_name (storeGetResponse st)

/-- `aadd_message` run against the faithful store: the new store state
holds exactly the payload written back. -/
def aaddToStore (session_id variable_name : String) (st : Option String) (t : Turn) :
    Except BlipErr (Option String) :=
  match aadd_message session_id variable_name (storeGetResponse st) storeSetResponse t with
  | .error e => .error e
  | .ok v => .ok (some v)

/-- The single-writer scenario of the round-trip property: `append(t1)`,
`append(t2)`, then `get()`, against the faithful store. -/
def appendAppendGet (session_id variable_name : String) (st : Option String)
    (t1 t2 : Turn) : Except BlipErr (List Turn) :=
  match aaddToStore session_id variable_name st t1 with
  | .error e => .error e
  | .ok st1 =>
    match aaddToStore session_id variable_name st1 t2 with
    | .error e => .error e
    | .ok st2 => agetFromStore session_id variable_name st2

/-! ## Helper lemmas about the dedup guard -/

theorem store_message_id_max_size (s : MemoryBlipDistributedMessageManager) (id2 : String) :
    (store_message_id s id2).max_size = s.max_size := by
  simp only [store_message_id]
  split <;> rfl

theorem fetch_message_status_max_size (s : MemoryBlipDistributedMessageManager)
    (m : BlipMessage) : (fetch_message_status s m).2.max_size = s.max_size := by
  unfold fetch_message_status
  split
  · rfl
  · exact store_message_id_max_size s m.id

theorem store_message_id_length (s : MemoryBlipDistributedMessageManager) (id2 : String)
    (h : (s.collected_messages.length : Int) ≤ s.max_size - 1) :
    ((store_message_id s id2).collected_messages.length : Int) ≤ s.max_size - 1 := by
  simp only [store_message_id]
  split
  · have hmem : (s.collected_messages ++ [id2]).getLastD "" ∈ s.collected_messages ++ [id2] := by
      have hne : s.collected_messages ++ [id2] ≠ [] := by simp
      rw [List.getLastD_eq_getLast?, List.getLast?_eq_getLast _ hne]
      exact List.getLast_mem hne
    have hlen := List.length_erase_of_mem hmem
    have hlen2 : (s.collected_messages ++ [id2]).length = s.collected_messages.length + 1 := by
      simp
    simp only [hlen, hlen2]
    push_cast
    omega
  · rename_i hcond
    have hlen2 : (s.collected_messages ++ [id2]).length = s.collected_messages.length + 1 := by
      simp
    rw [hlen2] at hcond ⊢
    push_cast at hcond ⊢
    omega

theorem fetch_message_status_length (s : MemoryBlipDistributedMessageManager)
    (m : BlipMessage) (h : (s.collected_messages.length : Int) ≤ s.max_size - 1) :
    (((fetch_message_status s m).2).collected_messages.length : Int) ≤ s.max_size - 1 := by
  unfold fetch_message_status
  split
  · exact h
  · exact store_message_id_length s m.id h

theorem runFetches_length (msgs : List BlipMessage) :
    ∀ s : MemoryBlipDistributedMessageManager,
      (s.collected_messages.length : Int) ≤ s.max_size - 1 →
      ((runFetches s msgs).collected_messages.length : Int) ≤ s.max_size - 1 := by
  induction msgs with
  | nil => intro s h; exact h
  | cons m rest ih =>
    intro s h
    have h1 := fetch_message_status_length s m h
    have h2 := fetch_message_status_max_size s m
    have h3 := ih (fetch_message_status s m).2 (by rw [h2]; exact h1)
    have h4 : runFetches s (m :: rest) = runFetches (fetch_message_status s m).2 rest := rfl
    rw [h4]
    rw [h2] at h3
    exact h3

/-! ## Claim theorems C1 - C4 -/

/-- Claim C1: for a manager whose record does not yet contain the id `m`,
the first `fetch_message_status` call returns PENDING and records `m`
(the id is in the record afterwards whenever the capacity eviction step
did not fire), and any immediate subsequent call with the same id, as
long as the id has not been evicted in between, returns CONSUMED. -/
theorem dedup_first_pending_then_consumed
    (s : MemoryBlipDistributedMessageManager) (m : BlipMessage)
    (h : m.id ∉ s.collected_messages) :
    (fetch_message_status s m).1 = BlipMessageStatus.PENDING ∧
    ((s.collected_messages.length + 1 : Int) < s.max_size →
      m.id ∈ (fetch_message_status s m).2.collected_messages) ∧
    (m.id ∈ (fetch_message_status s m).2.collected_messages →
      (fetch_message_status (fetch_message_status s m).2 m).1 = BlipMessageStatus.CONSUMED) := by
  have hfst : fetch_message_status s m = (.PENDING, store_message_id s m.id) := by
    unfold fetch_message_status
    rw [if_neg h]
  refine ⟨by rw [hfst], ?_, ?_⟩
  · intro hlt
    rw [hfst]
    unfold store_message_id
    have hlen : ((s.collected_messages ++ [m.id]).length : Int) =
        (s.collected_messages.length : Int) + 1 := by
      simp
    rw [if_neg (by rw [hlen]; omega)]
    simp
  · intro hmem
    simp only [hfst] at hmem ⊢
    unfold fetch_message_status
    rw [if_pos hmem]

/-- Witness for C1 at a concrete fresh manager and message. -/
theorem dedup_first_pending_then_consumed_witness :
    (fetch_message_status (freshManager 10) ⟨"m1", "userA@msging.net", "text/plain", .str "hi"⟩).1
        = BlipMessageStatus.PENDING ∧
    ((((freshManager 10).collected_messages.length : Int) + 1) < (freshManager 10).max_size →
      "m1" ∈ (fetch_message_status (freshManager 10)
        ⟨"m1", "userA@msging.net", "text/plain", .str "hi"⟩).2.collected_messages) ∧
    ("m1" ∈ (fetch_message_status (freshManager 10)
        ⟨"m1", "userA@msging.net", "text/plain", .str "hi"⟩).2.collected_messages →
      (fetch_message_status (fetch_message_status (freshManager 10)
          ⟨"m1", "userA@msging.net", "text/plain", .str "hi"⟩).2
        ⟨"m1", "userA@msging.net", "text/plain", .str "hi"⟩).1 = BlipMessageStatus.CONSUMED) :=
  dedup_first_pending_then_consumed (freshManager 10)
    ⟨"m1", "userA@msging.net", "text/plain", .str "hi"⟩ (by simp [freshManager])

/-- Claim C2 (code divergence): at capacity, `store_message_id` evicts the
identifier it has just appended (the newest), not the oldest.  With
capacity 2 and record `["a"]`, storing `"b"` leaves `["a"]`: the oldest
entry `"a"` survives and the newest `"b"` is removed.  Running three
distinct ids through a capacity-2 guard likewise retains only the
earliest id `"a"`. -/
theorem store_message_id_evicts_newest :
    (store_message_id ⟨["a"], 2⟩ "b").collected_messages = ["a"] ∧
    (runFetches (freshManager 2)
      [⟨"a", "u", "t", .str ""⟩, ⟨"b", "u", "t", .str ""⟩, ⟨"c", "u", "t", .str ""⟩]
      ).collected_messages = ["a"] := by
  constructor <;> rfl

/-- Claim C3: starting from a fresh guard of positive capacity `c`, after
any sequence of `fetch_message_status` calls the record length never
exceeds `c`. -/
theorem dedup_size_bound (c : Int) (hc : 1 ≤ c) (msgs : List BlipMessage) :
    (((runFetches (freshManager c) msgs).collected_messages.length : Int)) ≤ c := by
  have h := runFetches_length msgs (freshManager c) (by simp [freshManager]; omega)
  have hm : (freshManager c).max_size = c := rfl
  rw [hm] at h
  omega

/-- Witness for C3 at capacity 2 and three concrete messages. -/
theorem dedup_size_bound_witness :
    (((runFetches (freshManager 2)
        [⟨"a", "u", "t", .str ""⟩, ⟨"b", "u", "t", .str ""⟩, ⟨"c", "u", "t", .str ""⟩]
        ).collected_messages.length : Int)) ≤ 2 :=
  dedup_size_bound 2 (by omega)
    [⟨"a", "u", "t", .str ""⟩, ⟨"b", "u", "t", .str ""⟩, ⟨"c", "u", "t", .str ""⟩]

/-- Claim C4 (counterexample): constructing the manager with a
non-positive `max_size` is not rejected — `__init__` performs no
validation, so construction succeeds at 0 and at -5. -/
theorem initManager_accepts_nonpositive :
    initManager 0 = .ok (freshManager 0) ∧ initManager (-5) = .ok (freshManager (-5)) :=
  ⟨rfl, rfl⟩

/-- Claim C4 (amended): construction succeeds for every capacity,
non-positive included, yielding the empty record with the given
`max_size`; no validation error is ever produced. -/
theorem initManager_never_rejects (n : Int) :
    initManager n = .ok (freshManager n) ∧ (freshManager n).collected_messages = [] ∧
      (freshManager n).max_size = n :=
  ⟨rfl, rfl, rfl⟩

/-! ## Round trip of the payload codec -/

theorem decStr_encStr (s : List Char) : ∀ t : List Char, decStr (encStr s ++ t) = some (s, t) := by
  induction s with
  | nil =>
    intro t
    show decStr (';' :: t) = some ([], t)
    rw [decStr.eq_def]
    simp
  | cons c rest ih =>
    intro t
    by_cases hc : c = ';' ∨ c = '\\'
    · simp only [encStr, if_pos hc, List.cons_append]
      rw [decStr.eq_def]
      simp only [if_neg (show ¬(('\\' : Char) = ';') by decide), if_pos rfl]
      simp [ih]
    · push_neg at hc
      simp only [encStr, if_neg (by tauto : ¬(c = ';' ∨ c = '\\')), List.cons_append]
      rw [decStr.eq_def]
      simp only [if_neg hc.1, if_neg hc.2]
      simp [ih]

theorem decTurnsF_encTurns (ts : List Turn) :
    ∀ (fuel : Nat) (t : List Char), ts.length < fuel →
      decTurnsF fuel (encTurns ts ++ t) = some (ts, t) := by
  induction ts with
  | nil =>
    intro fuel t h
    match fuel with
    | f + 1 => simp [encTurns, decTurnsF]
  | cons t0 rest ih =>
    intro fuel t h
    match fuel with
    | f + 1 =>
      have hrest : rest.length < f := by
        simpa using Nat.lt_of_succ_lt_succ h
      obtain ⟨⟨tyd⟩, ⟨ctd⟩⟩ := t0
      simp only [encTurns, encTurn, List.cons_append, List.append_assoc]
      rw [decTurnsF]
      rw [if_neg (by decide), if_pos rfl]
      simp only [decStr_encStr]
      rw [ih f t hrest]

theorem length_lt_encTurns (ts : List Turn) : ts.length < (encTurns ts).length := by
  induction ts with
  | nil => simp [encTurns]
  | cons t0 rest ih =>
    simp only [encTurns, List.length_cons, List.length_append]
    omega

theorem decodeTurns_encodeTurns (ts : List Turn) :
    decodeTurns (encodeTurns ts) = some ts := by
  have h := decTurnsF_encTurns ts ((encTurns ts).length + 1) []
    (by have := length_lt_encTurns ts; omega)
  rw [List.append_nil] at h
  simp only [decodeTurns, encodeTurns]
  rw [h]

/-! ## Helper lemmas about the history store against the faithful store -/

theorem agetFromStore_none (sid var2 : String) :
    agetFromStore sid var2 none = .ok [] := by
  simp [agetFromStore, aget_messages, storeGetResponse, COMMAND_RESOURCE_NOT_FOUND]

theorem agetFromStore_some (sid var2 : String) (ts : List Turn) :
    agetFromStore sid var2 (some (encodeTurns ts)) = .ok ts := by
  simp [agetFromStore, aget_messages, storeGetResponse, decodeTurns_encodeTurns]

theorem aaddToStore_none (sid var2 : String) (t : Turn) :
    aaddToStore sid var2 none t = .ok (some (encodeTurns [t])) := rfl

theorem aaddToStore_some (sid var2 : String) (ts : List Turn) (t : Turn) :
    aaddToStore sid var2 (some (encodeTurns ts)) t = .ok (some (encodeTurns (ts ++ [t]))) := by
  have hget : aget_messages sid var2 (storeGetResponse (some (encodeTurns ts))) = .ok ts := by
    simp [aget_messages, storeGetResponse, decodeTurns_encodeTurns]
  simp [aaddToStore, aadd_message, hget, set_context_async, storeSetResponse]

/-! ## Claim theorems C5 - C7 -/

/-- Claim C5: a read whose command response has status FAILURE with the
RESOURCE_NOT_FOUND reason code returns the empty message list and no
error. -/
theorem aget_not_found_as_empty (session_id variable_name : String) (r : Response)
    (h1 : r.status = CommandStatus.FAILURE)
    (h2 : r.reason = some ⟨COMMAND_RESOURCE_NOT_FOUND⟩) :
    aget_messages session_id variable_name r = .ok [] := by
  unfold aget_messages
  rw [h1, h2]
  simp

/-- Witness for C5 at a concrete NOT_FOUND response. -/
theorem aget_not_found_as_empty_witness :
    aget_messages "userA@msging.net" "chat_history"
      ⟨.FAILURE, some ⟨COMMAND_RESOURCE_NOT_FOUND⟩, none⟩ = .ok [] :=
  aget_not_found_as_empty "userA@msging.net" "chat_history"
    ⟨.FAILURE, some ⟨COMMAND_RESOURCE_NOT_FOUND⟩, none⟩ rfl rfl

/-- Claim C6 (counterexample): a FAILURE read response that carries no
reason is outside the NOT_FOUND case, yet `aget_messages` raises a
`TypeError` (from subscripting the absent reason), not a store-level
error naming the variable and the session. -/
theorem aget_failure_without_reason_typeerror :
    aget_messages "userA@msging.net" "chat_history"
        (⟨.FAILURE, none, none⟩ : Response) = .error .typeError ∧
    isStoreFailure (aget_messages "userA@msging.net" "chat_history"
        (⟨.FAILURE, none, none⟩ : Response)) = false ∧
    (⟨.FAILURE, none, none⟩ : Response).status = CommandStatus.FAILURE ∧
    (⟨.FAILURE, none, none⟩ : Response).reason ≠ some ⟨COMMAND_RESOURCE_NOT_FOUND⟩ := by
  refine ⟨rfl, rfl, rfl, by simp⟩

/-- Claim C6 (amended): restricted to FAILURE responses that carry a
reason on reads, each history-store operation raises the store-level
error naming the variable and the session exactly when a response has
status FAILURE outside the NOT_FOUND-on-read case. -/
theorem store_failure_iff (session_id variable_name : String) (value : String)
    (rg rs : Response) (t : Turn)
    (hwf : rg.status = CommandStatus.FAILURE → rg.reason.isSome) :
    (aget_messages session_id variable_name rg
        = .error (.failedRequesting variable_name session_id) ↔
      (rg.status = CommandStatus.FAILURE ∧
        rg.reason ≠ some ⟨COMMAND_RESOURCE_NOT_FOUND⟩)) ∧
    (set_context_async session_id variable_name value rs
        = .error (.failedUpdating variable_name session_id) ↔
      rs.status = CommandStatus.FAILURE) ∧
    (isStoreFailure (aadd_message session_id variable_name rg rs t) = true ↔
      ((rg.status = CommandStatus.FAILURE ∧
          rg.reason ≠ some ⟨COMMAND_RESOURCE_NOT_FOUND⟩) ∨
        ((aget_messages session_id variable_name rg).isOk = true ∧
          rs.status = CommandStatus.FAILURE))) ∧
    (isStoreFailure (aclear session_id variable_name rs) = true ↔
      rs.status = CommandStatus.FAILURE) := by
  obtain ⟨gst, grs, gres⟩ := rg
  obtain ⟨sst, srs, sres⟩ := rs
  refine ⟨?_, ?_, ?_, ?_⟩
  · cases gst with
    | FAILURE =>
      cases grs with
      | none => simp at hwf
      | some r =>
        obtain ⟨rc⟩ := r
        by_cases hr : rc = COMMAND_RESOURCE_NOT_FOUND
        · subst hr
          simp [aget_messages]
        · simp [aget_messages, hr]
    | SUCCESS =>
      cases gres with
      | none => simp [aget_messages]
      | some s =>
        cases hdec : decodeTurns s with
        | none => simp [aget_messages, hdec]
        | some ts => simp [aget_messages, hdec]
  · cases sst with
    | FAILURE => simp [set_context_async]
    | SUCCESS => simp [set_context_async]
  · cases gst with
    | FAILURE =>
      cases grs with
      | none => simp at hwf
      | some r =>
        obtain ⟨rc⟩ := r
        by_cases hr : rc = COMMAND_RESOURCE_NOT_FOUND
        · subst hr
          cases sst with
          | FAILURE =>
            simp [aadd_message, aget_messages, set_context_async, isStoreFailure, Except.isOk,
              Except.toBool]
          | SUCCESS =>
            simp [aadd_message, aget_messages, set_context_async, isStoreFailure, Except.isOk,
              Except.toBool]
        · simp [aadd_message, aget_messages, set_context_async, isStoreFailure, hr,
            Except.isOk, Except.toBool]
    | SUCCESS =>
      cases gres with
      | none =>
        simp [aadd_message, aget_messages, isStoreFailure, Except.isOk, Except.toBool]
      | some s =>
        cases hdec : decodeTurns s with
        | none =>
          simp [aadd_message, aget_messages, hdec, isStoreFailure, Except.isOk, Except.toBool]
        | some ts =>
          cases sst with
          | FAILURE =>
            simp [aadd_message, aget_messages, hdec, set_context_async, isStoreFailure,
              Except.isOk, Except.toBool]
          | SUCCESS =>
            simp [aadd_message, aget_messages, hdec, set_context_async, isStoreFailure,
              Except.isOk, Except.toBool]
  · cases sst with
    | FAILURE => simp [aclear, set_context_async, isStoreFailure]
    | SUCCESS => simp [aclear, set_context_async, isStoreFailure]

/-- Witness for the amended C6 at concrete responses: a FAILURE read
response with an unrelated reason code and a SUCCESS write response. -/
theorem store_failure_iff_witness :
    (aget_messages "userA@msging.net" "chat_history" ⟨.FAILURE, some ⟨13⟩, none⟩
        = .error (.failedRequesting "chat_history" "userA@msging.net") ↔
      ((⟨.FAILURE, some ⟨13⟩, none⟩ : Response).status = CommandStatus.FAILURE ∧
        (⟨.FAILURE, some ⟨13⟩, none⟩ : Response).reason
          ≠ some ⟨COMMAND_RESOURCE_NOT_FOUND⟩)) ∧
    (set_context_async "userA@msging.net" "chat_history" "[]" ⟨.SUCCESS, none, none⟩
        = .error (.failedUpdating "chat_history" "userA@msging.net") ↔
      (⟨.SUCCESS, none, none⟩ : Response).status = CommandStatus.FAILURE) ∧
    (isStoreFailure (aadd_message "userA@msging.net" "chat_history"
        ⟨.FAILURE, some ⟨13⟩, none⟩ ⟨.SUCCESS, none, none⟩ ⟨"human", "hi"⟩) = true ↔
      (((⟨.FAILURE, some ⟨13⟩, none⟩ : Response).status = CommandStatus.FAILURE ∧
          (⟨.FAILURE, some ⟨13⟩, none⟩ : Response).reason
            ≠ some ⟨COMMAND_RESOURCE_NOT_FOUND⟩) ∨
        ((aget_messages "userA@msging.net" "chat_history"
            ⟨.FAILURE, some ⟨13⟩, none⟩).isOk = true ∧
          (⟨.SUCCESS, none, none⟩ : Response).status = CommandStatus.FAILURE))) ∧
    (isStoreFailure (aclear "userA@msging.net" "chat_history" ⟨.SUCCESS, none, none⟩) = true ↔
      (⟨.SUCCESS, none, none⟩ : Response).status = CommandStatus.FAILURE) :=
  store_failure_iff "userA@msging.net" "chat_history" "[]"
    ⟨.FAILURE, some ⟨13⟩, none⟩ ⟨.SUCCESS, none, none⟩ ⟨"human", "hi"⟩ (by simp)

/-- Claim C7: against a faithful store (single writer), `append(t1)` then
`append(t2)` then `get()` yields the prior history extended by
`[t1, t2]` in that order, for every starting value (absent or a
well-formed encoded history). -/
theorem append_append_get_round_trip (session_id variable_name : String)
    (h : Option (List Turn)) (t1 t2 : Turn) :
    appendAppendGet session_id variable_name (h.map encodeTurns) t1 t2
      = .ok (h.getD [] ++ [t1, t2]) := by
  cases h with
  | none =>
    simp [appendAppendGet, aaddToStore_none, aaddToStore_some, agetFromStore_some]
  | some ts =>
    simp [appendAppendGet, aaddToStore_some, agetFromStore_some]

/-! ## Claim theorems C8 - C10 -/

/-- Claim C8: a chatstate-tagged message is never admitted, whatever the
guard state and custom filter; a non-chatstate message is decided in
short-circuit order: dedup check when a guard is configured, else the
custom filter when configured, else admitted. -/
theorem predicate_chatstate_and_order
    (dmm : Option MemoryBlipDistributedMessageManager)
    (mf : Option (BlipMessage → Bool)) (msg : BlipMessage) :
    (message_predicate dmm mf msg).1 =
      (if msg.type_n = chatstateTag then false
       else
         match dmm with
         | some g => decide ((fetch_message_status g msg).1 = BlipMessageStatus.PENDING)
         | none =>
           match mf with
           | some f => f msg
           | none => true) := by
  unfold message_predicate
  by_cases hT : msg.type_n = chatstateTag
  · rw [if_pos hT, if_pos hT]
  · rw [if_neg hT, if_neg hT]
    cases dmm with
    | some g => rfl
    | none => cases mf <;> rfl

/-- Claim C9: the handler sends exactly one `text/plain` reply addressed
to the parsed sender identity precisely when the application result is an
`AIMessage` with non-empty content and no tool calls; any other result
shape produces no outbound message. -/
theorem handler_single_reply_iff (runnable : HumanMessage → Identity → AppResponse)
    (msg : BlipMessage) (hm : HumanMessage)
    (hconv : convert_message_from_blip msg.content = .ok hm) :
    process_message runnable msg = .ok
      (match runnable hm (parseIdentity msg.from_n) with
       | .AIMessage c tool_calls =>
         if c ≠ "" ∧ tool_calls = [] then [⟨"text/plain", c, parseIdentity msg.from_n⟩]
         else []
       | .other => []) := by
  simp only [process_message, hconv]
  cases hr : runnable hm (parseIdentity msg.from_n) with
  | AIMessage c tool_calls =>
    dsimp only
    by_cases hc : c ≠ "" ∧ tool_calls = []
    · rw [if_pos hc, if_pos hc]
    · rw [if_neg hc, if_neg hc]
  | other => rfl

/-- Witness for C9: a plain assistant reply "hello" produces exactly one
outbound text message addressed to the sender identity. -/
theorem handler_single_reply_iff_witness :
    process_message (fun _ _ => AppResponse.AIMessage "hello" [])
        ⟨"m1", "userA@msging.net", "text/plain", .str "hi"⟩
      = .ok [⟨"text/plain", "hello", parseIdentity "userA@msging.net"⟩] := by
  have h := handler_single_reply_iff (fun _ _ => AppResponse.AIMessage "hello" [])
    ⟨"m1", "userA@msging.net", "text/plain", .str "hi"⟩ ⟨.str "hi"⟩ rfl
  simpa using h

theorem pyEq_dict_str (kvs2 : List (String × PyVal)) (s : String) :
    pyEq (.dict kvs2) (.str s) = false := by
  rw [pyEq.eq_def]

theorem pyIn_str_imageList (s : String) (uri : PyVal) :
    pyIn (.str s)
      (.list [.dict [("type", .str "image_url"), ("image_url", .dict [("url", uri)])]])
      = false := by
  simp [pyIn, pyEq_dict_str]

/-- Claim C10: for dict content whose type tag starts with "image/",
conversion yields a HumanMessage whose content is the single-element list
holding only the image_url item; the original dict's text and title
fields are never appended, since the membership tests run against the
rebound list of dicts. -/
theorem image_content_single_item (kvs : List (String × PyVal)) (ty : String) (uri : PyVal)
    (hty : dictGet kvs "type" = some (.str ty))
    (himg : strStartsWith ty "image/" = true)
    (huri : dictGet kvs "uri" = some uri) :
    convert_message_from_blip (.dict kvs) = .ok
      ⟨.list [.dict [("type", .str "image_url"), ("image_url", .dict [("url", uri)])]]⟩ := by
  unfold convert_message_from_blip
  simp [pySubscript, hty, huri, himg, pyIn_str_imageList]

/-- Witness for C10: an image dict that carries both a text and a title
field still converts to the single image_url item. -/
theorem image_content_single_item_witness :
    convert_message_from_blip (.dict [("type", .str "image/jpeg"),
        ("uri", .str "http://img"), ("text", .str "cap"), ("title", .str "ttl")]) = .ok
      ⟨.list [.dict [("type", .str "image_url"),
        ("image_url", .dict [("url", .str "http://img")])]]⟩ :=
  image_content_single_item
    [("type", .str "image/jpeg"), ("uri", .str "http://img"),
      ("text", .str "cap"), ("title", .str "ttl")]
    "image/jpeg" (.str "http://img") rfl rfl rfl

end BlipVerify
